import Mathlib

/-!
# Verification of the VISTUT self-extracting executable format

A shallow embedding of the packer/unpacker found in
`packages/tutorial-maker/src-tauri/src/embedded.rs`,
`packages/tutorial-maker/src-tauri/src/lib.rs`,
`packages/tutorial-maker/src-tauri/src/video.rs` and
`packages/tutorial-viewer/src-tauri/src/lib.rs`.

Files on disk are modelled as `List Nat` (byte values); strings that the
Rust code handles as `String`/`&str` keep their Lean `String` type, and
the bytes written for them are produced by an explicit UTF-8 encoder.
Filesystem and subprocess effects are made explicit: every reader takes
the file's byte content as an argument, and the external JSON parser
(serde_json) and the external transcoder are passed in as function
arguments where a claim does not depend on their internals.
-/

namespace VisTut

set_option maxRecDepth 100000

/-- Magic bytes `b"VISTUT_V1"` (`MAGIC_BYTES` in embedded.rs), as byte values. -/
def MAGIC_BYTES : List Nat := "VISTUT_V1".data.map Char.toNat

/-- `MAGIC_SIZE` in embedded.rs. -/
def MAGIC_SIZE : Nat := 9

/-- `MANIFEST_SIZE_BYTES` in embedded.rs. -/
def MANIFEST_SIZE_BYTES : Nat := 8

/-- Little-endian byte encoding (`u64::to_le_bytes` generalised to `k` bytes). -/
def leBytes : Nat → Nat → List Nat
  | 0, _ => []
  | k + 1, n => (n % 256) :: leBytes k (n / 256)

/-- `u64::to_le_bytes`: the 8-byte little-endian encoding. -/
def le64 (n : Nat) : List Nat := leBytes 8 n

/-- `u64::from_le_bytes`: decode a little-endian byte list. -/
def decodeLe64 (bs : List Nat) : Nat := bs.foldr (fun b acc => b + 256 * acc) 0

/-- UTF-8 encoding of a single scalar value (what Rust `str` bytes contain). -/
def utf8EncodeChar (c : Char) : List Nat :=
  let n := c.toNat
  if n < 0x80 then [n]
  else if n < 0x800 then [0xC0 + n / 64, 0x80 + n % 64]
  else if n < 0x10000 then [0xE0 + n / 4096, 0x80 + n / 64 % 64, 0x80 + n % 64]
  else [0xF0 + n / 262144, 0x80 + n / 4096 % 64, 0x80 + n / 64 % 64, 0x80 + n % 64]

/-- The bytes of a Rust `String`/`&str` (`str::as_bytes`). -/
def utf8Encode (s : String) : List Nat := (s.data.map utf8EncodeChar).flatten

/-- Is a byte a UTF-8 continuation byte (`0x80..=0xBF`)? -/
def isCont (b : Nat) : Bool := 0x80 ≤ b && b ≤ 0xBF

/-- UTF-8 validity of a byte list, as checked by Rust `String::from_utf8`. -/
def isValidUtf8 : List Nat → Bool
  | [] => true
  | b :: rest =>
    if b ≤ 0x7F then isValidUtf8 rest
    else if 0xC2 ≤ b && b ≤ 0xDF then
      match rest with
      | c1 :: r => isCont c1 && isValidUtf8 r
      | _ => false
    else if b = 0xE0 then
      match rest with
      | c1 :: c2 :: r => (0xA0 ≤ c1 && c1 ≤ 0xBF) && isCont c2 && isValidUtf8 r
      | _ => false
    else if 0xE1 ≤ b && b ≤ 0xEC then
      match rest with
      | c1 :: c2 :: r => isCont c1 && isCont c2 && isValidUtf8 r
      | _ => false
    else if b = 0xED then
      match rest with
      | c1 :: c2 :: r => (0x80 ≤ c1 && c1 ≤ 0x9F) && isCont c2 && isValidUtf8 r
      | _ => false
    else if 0xEE ≤ b && b ≤ 0xEF then
      match rest with
      | c1 :: c2 :: r => isCont c1 && isCont c2 && isValidUtf8 r
      | _ => false
    else if b = 0xF0 then
      match rest with
      | c1 :: c2 :: c3 :: r =>
        (0x90 ≤ c1 && c1 ≤ 0xBF) && isCont c2 && isCont c3 && isValidUtf8 r
      | _ => false
    else if 0xF1 ≤ b && b ≤ 0xF3 then
      match rest with
      | c1 :: c2 :: c3 :: r => isCont c1 && isCont c2 && isCont c3 && isValidUtf8 r
      | _ => false
    else if b = 0xF4 then
      match rest with
      | c1 :: c2 :: c3 :: r =>
        (0x80 ≤ c1 && c1 ≤ 0x8F) && isCont c2 && isCont c3 && isValidUtf8 r
      | _ => false
    else false

/-- `MediaManifestEntry` of embedded.rs (u64 fields modelled as `Nat`). -/
structure MediaManifestEntry where
  id : String
  name : String
  mime_type : String
  offset : Nat
  size : Nat
  deriving Repr, DecidableEq

/-- `BuildManifest` of embedded.rs. -/
structure BuildManifest where
  project_json_offset : Nat
  project_json_size : Nat
  media : List MediaManifestEntry
  buttons : List MediaManifestEntry
  app_icon_offset : Option Nat
  app_icon_size : Option Nat
  deriving Repr, DecidableEq

/-- `EmbeddedInfo` of embedded.rs. -/
structure EmbeddedInfo where
  has_embedded_data : Bool
  manifest : Option BuildManifest
  deriving Repr, DecidableEq

/-- serde_json escaping of a single character inside a JSON string literal. -/
def jsonEscapeChar (c : Char) : String :=
  if c = '"' then "\\\""
  else if c = '\\' then "\\\\"
  else if c = '\x08' then "\\b"
  else if c = '\x0c' then "\\f"
  else if c = '\n' then "\\n"
  else if c = '\r' then "\\r"
  else if c = '\t' then "\\t"
  else if c.toNat < 0x20 then
    let hexDigit := fun (n : Nat) => if n < 10 then Char.ofNat (48 + n) else Char.ofNat (87 + n)
    "\\u00" ++ String.singleton (hexDigit (c.toNat / 16)) ++ String.singleton (hexDigit (c.toNat % 16))
  else String.singleton c

/-- serde_json rendering of a JSON string literal. -/
def jsonString (s : String) : String :=
  "\"" ++ String.join (s.data.map jsonEscapeChar) ++ "\""

/-- serde_json (compact) rendering of a `MediaManifestEntry` with
`#[serde(rename_all = "camelCase")]`, fields in declaration order. -/
def entryToJson (e : MediaManifestEntry) : String :=
  "\x7b\"id\":" ++ jsonString e.id ++
  ",\"name\":" ++ jsonString e.name ++
  ",\"mimeType\":" ++ jsonString e.mime_type ++
  ",\"offset\":" ++ toString e.offset ++
  ",\"size\":" ++ toString e.size ++ "\x7d"

/-- serde_json rendering of an `Option<u64>` field value: default serde
behaviour serialises `None` as `null` (there is no `skip_serializing_if`
attribute on `BuildManifest`). -/
def optU64ToJson : Option Nat → String
  | none => "null"
  | some n => toString n

/-- `serde_json::to_string(&manifest)`: compact JSON, camelCase field names,
fields in declaration order, `Option` fields rendered as `null` when absent. -/
def manifestToJsonString (m : BuildManifest) : String :=
  "\x7b\"projectJsonOffset\":" ++ toString m.project_json_offset ++
  ",\"projectJsonSize\":" ++ toString m.project_json_size ++
  ",\"media\":[" ++ String.intercalate "," (m.media.map entryToJson) ++
  "],\"buttons\":[" ++ String.intercalate "," (m.buttons.map entryToJson) ++
  "],\"appIconOffset\":" ++ optU64ToJson m.app_icon_offset ++
  ",\"appIconSize\":" ++ optU64ToJson m.app_icon_size ++ "\x7d"

/-- The manifest bytes written by the packer (`manifest_json.as_bytes()`). -/
def manifestJsonBytes (m : BuildManifest) : List Nat :=
  utf8Encode (manifestToJsonString m)

/-- The icon bytes written by `create_embedded_executable` (empty when no icon). -/
def iconBytesOf : Option (List Nat) → List Nat
  | some icon => icon
  | none => []

/-- The manifest entries built by the write loops of `create_embedded_executable`
(lines 171–205 of embedded.rs): each input `(id, name, mime_type, data)` gets the
running offset, which then advances by `data.len()`. -/
def buildEntries (off : Nat) : List (String × String × String × List Nat) → List MediaManifestEntry
  | [] => []
  | (id, name, mime, data) :: rest =>
    { id := id, name := name, mime_type := mime, offset := off, size := data.length } ::
      buildEntries (off + data.length) rest

/-- The data bytes of a list of input files, in input order. -/
def filesBytes (files : List (String × String × String × List Nat)) : List Nat :=
  (files.map (fun t => t.2.2.2)).flatten

/-- Total byte size of a list of input files. -/
def totalSize (files : List (String × String × String × List Nat)) : Nat :=
  (files.map (fun t => t.2.2.2.length)).sum

/-- The `BuildManifest` value assembled by `create_embedded_executable`
(embedded.rs lines 166–234): `current_offset` starts at the output file's
length when opened for append (`base.length` here) and advances by each
written chunk, so the fields are the accumulated offsets spelled out. -/
def packManifest (base project_json : List Nat)
    (media_files button_files : List (String × String × String × List Nat))
    (app_icon : Option (List Nat)) : BuildManifest :=
  { project_json_offset :=
      base.length + totalSize media_files + totalSize button_files + (iconBytesOf app_icon).length
    project_json_size := project_json.length
    media := buildEntries base.length media_files
    buttons := buildEntries (base.length + totalSize media_files) button_files
    app_icon_offset := match app_icon with
      | some _ => some (base.length + totalSize media_files + totalSize button_files)
      | none => none
    app_icon_size := match app_icon with
      | some icon => some icon.length
      | none => none }

/-- `create_embedded_executable` of embedded.rs, as a pure function from the
copied base executable's bytes (the output file's content when opened for
append) and the inputs to the final file bytes plus the manifest it wrote.
The writes are sequential appends (embedded.rs lines 171–250): media data,
button data, icon, project document, manifest JSON, 8-byte little-endian
manifest size, magic. The project document is a Rust `&str`, modelled as its
UTF-8 byte list (`project_json.as_bytes()`). -/
def create_embedded_executable (base : List Nat) (project_json : List Nat)
    (media_files button_files : List (String × String × String × List Nat))
    (app_icon : Option (List Nat)) : List Nat × BuildManifest :=
  let manifest := packManifest base project_json media_files button_files app_icon
  let mb := manifestJsonBytes manifest
  (base ++ filesBytes media_files ++ filesBytes button_files ++ iconBytesOf app_icon ++
    project_json ++ mb ++ le64 mb.length ++ MAGIC_BYTES, manifest)

/-- `read_embedded_media` of embedded.rs: seek to `offset`, `read_exact` of
`size` bytes (which fails when the file ends before `offset + size`). -/
def read_embedded_media (file : List Nat) (offset size : Nat) : Except String (List Nat) :=
  if offset + size ≤ file.length then Except.ok ((file.drop offset).take size)
  else Except.error "Failed to read media: failed to fill whole buffer"

/-- `read_embedded_project` of embedded.rs: read the project byte range, then
`String::from_utf8`. The decoded string is represented by its byte list. -/
def read_embedded_project (file : List Nat) (manifest : BuildManifest) :
    Except String (List Nat) :=
  if manifest.project_json_offset + manifest.project_json_size ≤ file.length then
    let bytes := (file.drop manifest.project_json_offset).take manifest.project_json_size
    if isValidUtf8 bytes then Except.ok bytes
    else Except.error "Invalid UTF-8 in project JSON"
  else Except.error "Failed to read project JSON: failed to fill whole buffer"

/-- `check_magic_bytes` of embedded.rs, on a readable file's content:
files shorter than `MAGIC_SIZE + MANIFEST_SIZE_BYTES = 17` report `false`;
otherwise the last 9 bytes are compared with the magic. -/
def check_magic_bytes (file : List Nat) : Bool :=
  if file.length < MAGIC_SIZE + MANIFEST_SIZE_BYTES then false
  else file.drop (file.length - MAGIC_SIZE) == MAGIC_BYTES

/-- `read_manifest` of embedded.rs. The UTF-8 check plus
`serde_json::from_str` on the manifest slice is abstracted by the `parse`
argument (serde_json is an external crate); everything up to it — the seeks,
the size word decode, the slicing — is modelled from the source. A seek to
`End(-(17 + manifest_size))` fails when that position is before byte 0. -/
def read_manifest (parse : List Nat → Except String BuildManifest)
    (file : List Nat) : Except String BuildManifest :=
  if file.length < MAGIC_SIZE + MANIFEST_SIZE_BYTES then
    Except.error "Failed to seek to manifest size"
  else
    let msize := decodeLe64 ((file.drop (file.length - 17)).take 8)
    if file.length < 17 + msize then Except.error "Failed to seek to manifest"
    else parse ((file.drop (file.length - 17 - msize)).take msize)

/-- `get_embedded_info` of embedded.rs, on the current executable's content. -/
def get_embedded_info (parse : List Nat → Except String BuildManifest)
    (file : List Nat) : Except String EmbeddedInfo :=
  if !check_magic_bytes file then
    Except.ok { has_embedded_data := false, manifest := none }
  else
    match read_manifest parse file with
    | Except.error e => Except.error e
    | Except.ok m => Except.ok { has_embedded_data := true, manifest := some m }

/-- `get_embedded_media_data` of tutorial-viewer lib.rs: error when no magic,
otherwise read the manifest, search `media` first, then `buttons`, and read
the matching entry's byte range; error `"Media not found: {id}"` otherwise. -/
def get_embedded_media_data (parse : List Nat → Except String BuildManifest)
    (file : List Nat) (id : String) : Except String (List Nat) :=
  if !check_magic_bytes file then Except.error "No embedded data found"
  else
    match read_manifest parse file with
    | Except.error e => Except.error e
    | Except.ok manifest =>
      match manifest.media.find? (fun e => e.id == id) with
      | some entry => read_embedded_media file entry.offset entry.size
      | none =>
        match manifest.buttons.find? (fun e => e.id == id) with
        | some entry => read_embedded_media file entry.offset entry.size
        | none => Except.error ("Media not found: " ++ id)

/-- `get_embedded_app_icon` of tutorial-viewer lib.rs: error when no magic,
otherwise read the manifest and return the icon bytes when both
`app_icon_offset` and `app_icon_size` are present, `none` otherwise. -/
def get_embedded_app_icon (parse : List Nat → Except String BuildManifest)
    (file : List Nat) : Except String (Option (List Nat)) :=
  if !check_magic_bytes file then Except.error "No embedded data found"
  else
    match read_manifest parse file with
    | Except.error e => Except.error e
    | Except.ok manifest =>
      match manifest.app_icon_offset, manifest.app_icon_size with
      | some offset, some size =>
        match read_embedded_media file offset size with
        | Except.error e => Except.error e
        | Except.ok data => Except.ok (some data)
      | _, _ => Except.ok none

/-- `CompressionQuality` of video.rs. -/
inductive CompressionQuality where
  | low
  | medium
  | high
  deriving Repr, DecidableEq

/-- `CompressionSettings` of video.rs. -/
structure CompressionSettings where
  enabled : Bool
  quality : CompressionQuality
  max_height : Option Nat
  deriving Repr, DecidableEq

/-- `MediaSource` of the tutorial-maker embedding layer: asset content is
supplied either by a filesystem path or as in-memory bytes. Its two variants
`MediaSource::Path(String)` and `MediaSource::Data(Vec<u8>)` are fixed by
their uses in tutorial-maker lib.rs (`to_media_source`,
`process_media_file_for_export`). -/
inductive MediaSource where
  | path (p : String)
  | data (d : List Nat)
  deriving Repr, DecidableEq

/-- `ExportMediaFile` of tutorial-maker lib.rs: `data` and `path` are both
optional (serde `#[serde(default)]`). -/
structure ExportMediaFile where
  id : String
  name : String
  mime_type : String
  data : Option (List Nat)
  path : Option String
  deriving Repr, DecidableEq

/-- `to_media_source` of tutorial-maker lib.rs: prefer `path`, then `data`,
then empty bytes. -/
def to_media_source (file : ExportMediaFile) : String × String × String × MediaSource :=
  let source := match file.path with
    | some p => MediaSource.path p
    | none =>
      match file.data with
      | some d => MediaSource.data d
      | none => MediaSource.data []
  (file.id, file.name, file.mime_type, source)

/-- `is_video_file` of video.rs: `mime_type.starts_with("video/")`, expressed
on the character list. -/
def is_video_file (mime_type : String) : Bool := "video/".data.isPrefixOf mime_type.data

/-- `process_media_file_for_export` of tutorial-maker lib.rs, as a pure
function. The filesystem temp-name generation (`get_temp_input_path`,
`get_temp_compressed_path` — nondeterministic clock reads) is abstracted by
the `temp_input_path` / `temp_output_path` arguments, and the external
transcoder invocation `compress_video(ffmpeg, input, output, settings)` by the
`compress` argument (input path, output path → success or error string).
Writing the in-memory data to the temp input file is the model's filesystem
write and always succeeds. The returned list mirrors the pushes to the
`compressed_temp_files` vector. On compression success the result's
mime type is the literal `"video/mp4"` and the source is the compressed
output path; on failure the original asset (`to_media_source`) is used. -/
def process_media_file_for_export (file : ExportMediaFile)
    (compression : Option CompressionSettings)
    (temp_input_path temp_output_path : String)
    (compress : String → String → Except String Unit) :
    Except String ((String × String × String × MediaSource) × List String) :=
  let should_compress := match compression with
    | some c => c.enabled && is_video_file file.mime_type
    | none => false
  if !should_compress then Except.ok (to_media_source file, [])
  else
    match file.path, file.data with
    | some p, _ =>
      (match compress p temp_output_path with
       | Except.ok _ => Except.ok
           ((file.id, file.name, "video/mp4", MediaSource.path temp_output_path), [temp_output_path])
       | Except.error _ => Except.ok (to_media_source file, []))
    | none, some _ =>
      (match compress temp_input_path temp_output_path with
       | Except.ok _ => Except.ok
           ((file.id, file.name, "video/mp4", MediaSource.path temp_output_path),
            [temp_input_path, temp_output_path])
       | Except.error _ => Except.ok (to_media_source file, [temp_input_path]))
    | none, none => Except.ok (to_media_source file, [])

/-- The key `"out_time_ms="` of the transcoder's progress protocol, as a
character list (lines are modelled as `List Char`). -/
def out_time_key : List Char := "out_time_ms=".data

/-- Rust `str::parse::<i64>`: optional sign, at least one decimal digit,
value within the `i64` range. -/
def parseI64 (cs : List Char) : Option Int :=
  let signAndDigits : Int × List Char := match cs with
    | '-' :: r => (-1, r)
    | '+' :: r => (1, r)
    | r => (1, r)
  match signAndDigits.2 with
  | [] => none
  | ds =>
    if ds.all Char.isDigit then
      let v : Int := signAndDigits.1 * (ds.foldl (fun n c => n * 10 + (c.toNat - 48)) 0 : Nat)
      if -(2 ^ 63) ≤ v ∧ v < 2 ^ 63 then some v else none
    else none

/-- The progress reports that one stdout line of the transcoder triggers in
the read loop of `compress_video_with_progress` (video.rs lines 229–248),
in order. A line starting with `out_time_ms=` whose suffix parses as an
`i64` reports `min (current_secs / duration_secs * 100) 100` — but only when
`duration_secs > 0`; a literal `progress=end` line reports `100`. The f64
arithmetic of the source is modelled by exact rationals. -/
def processLine (duration_secs : ℚ) (line : List Char) : List ℚ :=
  (if line.take 12 = out_time_key then
    match parseI64 (line.drop 12) with
    | some time_us =>
      let current_secs : ℚ := (time_us : ℚ) / 1000000
      if 0 < duration_secs then [min (current_secs / duration_secs * 100) 100] else []
    | none => []
  else []) ++
  (if line = "progress=end".data then [100] else [])

/-- The full sequence of progress reports for a list of stdout lines. -/
def progressReports (duration_secs : ℚ) (lines : List (List Char)) : List ℚ :=
  (lines.map (processLine duration_secs)).flatten

/-! ## Helper lemmas about slicing and the write loops -/

theorem slice_at (pre d suf : List Nat) :
    ((pre ++ d ++ suf).drop pre.length).take d.length = d := by
  rw [List.append_assoc, List.drop_left, List.take_left]

theorem read_embedded_media_at (pre d suf : List Nat) :
    read_embedded_media (pre ++ d ++ suf) pre.length d.length = Except.ok d := by
  unfold read_embedded_media
  rw [if_pos]
  · rw [slice_at]
  · simp only [List.length_append]
    omega

theorem filesBytes_nil : filesBytes [] = [] := rfl

theorem filesBytes_cons (hd : String × String × String × List Nat)
    (tl : List (String × String × String × List Nat)) :
    filesBytes (hd :: tl) = hd.2.2.2 ++ filesBytes tl := by
  simp [filesBytes]

theorem filesBytes_length (fs : List (String × String × String × List Nat)) :
    (filesBytes fs).length = totalSize fs := by
  induction fs with
  | nil => rfl
  | cons hd tl ih => simp [filesBytes_cons, totalSize, ih, List.sum_cons]

/-- Reading every entry built by the write loop at its recorded offset and size
recovers exactly the input `(id, bytes)` pairs, for any surrounding bytes. -/
theorem buildEntries_read (files : List (String × String × String × List Nat))
    (pre suf : List Nat) :
    (buildEntries pre.length files).map
        (fun e => (e.id, read_embedded_media (pre ++ filesBytes files ++ suf) e.offset e.size))
      = files.map (fun t => (t.1, Except.ok t.2.2.2)) := by
  induction files generalizing pre with
  | nil => simp [buildEntries, filesBytes_nil]
  | cons hd tl ih =>
    obtain ⟨id, name, mime, data⟩ := hd
    simp only [buildEntries, List.map_cons, filesBytes_cons, List.append_assoc]
    refine List.cons_eq_cons.mpr ⟨?_, ?_⟩
    · have h := read_embedded_media_at pre data (filesBytes tl ++ suf)
      rw [List.append_assoc] at h
      exact congrArg (fun r => (id, r)) h
    · have h := ih (pre ++ data)
      simpa [List.append_assoc] using h

theorem read_embedded_project_at (pre d suf : List Nat) (m : BuildManifest)
    (h1 : m.project_json_offset = pre.length) (h2 : m.project_json_size = d.length)
    (h3 : isValidUtf8 d = true) :
    read_embedded_project (pre ++ d ++ suf) m = Except.ok d := by
  unfold read_embedded_project
  rw [h1, h2, if_pos, slice_at, if_pos h3]
  simp only [List.length_append]
  omega

/-- The round-trip property for one pack: reading the project document, every
media entry, every button entry and the icon range back out of the produced
file recovers exactly the inputs. -/
def RoundTrip (base project_json : List Nat)
    (media_files button_files : List (String × String × String × List Nat))
    (app_icon : Option (List Nat)) : Prop :=
  let r := create_embedded_executable base project_json media_files button_files app_icon
  read_embedded_project r.1 r.2 = Except.ok project_json ∧
  r.2.media.map (fun e => (e.id, read_embedded_media r.1 e.offset e.size))
    = media_files.map (fun t => (t.1, Except.ok t.2.2.2)) ∧
  r.2.buttons.map (fun e => (e.id, read_embedded_media r.1 e.offset e.size))
    = button_files.map (fun t => (t.1, Except.ok t.2.2.2)) ∧
  (match app_icon with
   | some icon => ∃ o s, r.2.app_icon_offset = some o ∧ r.2.app_icon_size = some s ∧
       read_embedded_media r.1 o s = Except.ok icon
   | none => r.2.app_icon_offset = none ∧ r.2.app_icon_size = none)

/-- C1: Round-trip — packing a project document, media assets, button assets
(ids unique within each list) and an optional icon with
`create_embedded_executable`, then reading back via `read_embedded_project`,
`read_embedded_media` on each manifest entry and the icon offset/size pair,
yields exactly the original project document bytes, the original `(id, bytes)`
pairs, and the original icon bytes if present. -/
theorem C1_pack_unpack_round_trip (base project_json : List Nat)
    (media_files button_files : List (String × String × String × List Nat))
    (app_icon : Option (List Nat))
    (hutf : isValidUtf8 project_json = true)
    (hmid : (media_files.map (fun t => t.1)).Nodup)
    (hbid : (button_files.map (fun t => t.1)).Nodup) :
    RoundTrip base project_json media_files button_files app_icon := by
  unfold RoundTrip create_embedded_executable
  refine ⟨?_, ?_, ?_, ?_⟩
  · have h := read_embedded_project_at
      (base ++ filesBytes media_files ++ filesBytes button_files ++ iconBytesOf app_icon)
      project_json
      (manifestJsonBytes (packManifest base project_json media_files button_files app_icon) ++
        le64 (manifestJsonBytes (packManifest base project_json media_files button_files app_icon)).length ++
        MAGIC_BYTES)
      (packManifest base project_json media_files button_files app_icon)
      (by simp [packManifest, filesBytes_length, iconBytesOf]; omega) rfl hutf
    simpa [List.append_assoc] using h
  · have h := buildEntries_read media_files base
      (filesBytes button_files ++ iconBytesOf app_icon ++ project_json ++
        manifestJsonBytes (packManifest base project_json media_files button_files app_icon) ++
        le64 (manifestJsonBytes (packManifest base project_json media_files button_files app_icon)).length ++
        MAGIC_BYTES)
    simp only [packManifest]
    simpa [List.append_assoc] using h
  · have h := buildEntries_read button_files (base ++ filesBytes media_files)
      (iconBytesOf app_icon ++ project_json ++
        manifestJsonBytes (packManifest base project_json media_files button_files app_icon) ++
        le64 (manifestJsonBytes (packManifest base project_json media_files button_files app_icon)).length ++
        MAGIC_BYTES)
    simp only [packManifest]
    simpa [List.append_assoc, filesBytes_length] using h
  · match app_icon with
    | none => exact ⟨rfl, rfl⟩
    | some icon =>
      refine ⟨base.length + totalSize media_files + totalSize button_files, icon.length,
        rfl, rfl, ?_⟩
      have h := read_embedded_media_at (base ++ filesBytes media_files ++ filesBytes button_files)
        icon
        (project_json ++
          manifestJsonBytes (packManifest base project_json media_files button_files (some icon)) ++
          le64 (manifestJsonBytes (packManifest base project_json media_files button_files (some icon))).length ++
          MAGIC_BYTES)
      simpa [List.append_assoc, filesBytes_length, iconBytesOf, Nat.add_assoc] using h

/-- Concrete witness for C1 at a three-byte base, project `[123, 125]`
(`"\x7b\x7d"`), one media asset, one button asset and a one-byte icon. -/
theorem C1_pack_unpack_round_trip_witness :
    isValidUtf8 [123, 125] = true ∧
    ([("a", "a.png", "image/png", ([137, 80] : List Nat))].map (fun t => t.1)).Nodup ∧
    ([("y", "y.png", "image/png", ([104, 105] : List Nat))].map (fun t => t.1)).Nodup ∧
    RoundTrip [1, 2, 3] [123, 125]
      [("a", "a.png", "image/png", [137, 80])]
      [("y", "y.png", "image/png", [104, 105])] (some [9]) :=
  ⟨by decide, by decide, by decide,
    C1_pack_unpack_round_trip [1, 2, 3] [123, 125]
      [("a", "a.png", "image/png", [137, 80])]
      [("y", "y.png", "image/png", [104, 105])] (some [9])
      (by decide) (by decide) (by decide)⟩

/-! ## Layout of the packed file -/

/-- The `(offset, size)` pairs recorded in a manifest, in write order:
media entries, button entries, the icon pair (when both fields are present),
then the project document pair. -/
def layoutPairs (m : BuildManifest) : List (Nat × Nat) :=
  m.media.map (fun e => (e.offset, e.size)) ++
  m.buttons.map (fun e => (e.offset, e.size)) ++
  (match m.app_icon_offset, m.app_icon_size with
   | some o, some s => [(o, s)]
   | _, _ => []) ++
  [(m.project_json_offset, m.project_json_size)]

/-- `(offset, size)` pairs are contiguous starting at `off`: each offset equals
the running position, which then advances by the size. -/
def contiguousFrom : Nat → List (Nat × Nat) → Bool
  | _, [] => true
  | off, p :: rest => (p.1 == off) && contiguousFrom (p.1 + p.2) rest

/-- Sum of the sizes of a pair list. -/
def sizesSum (ps : List (Nat × Nat)) : Nat := (ps.map (fun p => p.2)).sum

theorem contiguousFrom_buildEntries (files : List (String × String × String × List Nat))
    (off : Nat) (rest : List (Nat × Nat)) :
    contiguousFrom off ((buildEntries off files).map (fun e => (e.offset, e.size)) ++ rest)
      = contiguousFrom (off + totalSize files) rest := by
  induction files generalizing off with
  | nil => simp [buildEntries, totalSize]
  | cons hd tl ih =>
    obtain ⟨id, name, mime, data⟩ := hd
    simp only [buildEntries, List.map_cons, List.cons_append, contiguousFrom,
      beq_self_eq_true, Bool.true_and, List.append_eq, ih (off + data.length),
      totalSize, List.sum_cons]
    rw [Nat.add_assoc]

theorem contiguousFrom_chain' (ps : List (Nat × Nat)) :
    ∀ off, contiguousFrom off ps = true → List.Chain' (fun p q => p.1 ≤ q.1) ps := by
  induction ps with
  | nil => intro off _; exact List.chain'_nil
  | cons hd tl ih =>
    intro off h
    simp only [contiguousFrom, Bool.and_eq_true, beq_iff_eq] at h
    refine List.chain'_cons'.mpr ⟨?_, ih (hd.1 + hd.2) h.2⟩
    intro q hq
    cases tl with
    | nil => simp at hq
    | cons q0 tl' =>
      simp only [List.head?_cons, Option.mem_def, Option.some.injEq] at hq
      subst hq
      simp only [contiguousFrom, Bool.and_eq_true, beq_iff_eq] at h
      omega

theorem contiguousFrom_range_bound (ps : List (Nat × Nat)) :
    ∀ off, contiguousFrom off ps = true → ∀ p ∈ ps, p.1 + p.2 ≤ off + sizesSum ps := by
  induction ps with
  | nil => simp
  | cons hd tl ih =>
    intro off h p hp
    simp only [contiguousFrom, Bool.and_eq_true, beq_iff_eq] at h
    rw [List.mem_cons] at hp
    rcases hp with rfl | hp
    · simp only [sizesSum, List.map_cons, List.sum_cons]
      omega
    · have hb := ih (hd.1 + hd.2) h.2 p hp
      simp only [sizesSum, List.map_cons, List.sum_cons] at hb ⊢
      omega

theorem contiguousFrom_last (ps : List (Nat × Nat)) (q : Nat × Nat) :
    ∀ off, contiguousFrom off (ps ++ [q]) = true → off + sizesSum (ps ++ [q]) = q.1 + q.2 := by
  induction ps with
  | nil =>
    intro off h
    simp only [List.nil_append, contiguousFrom, Bool.and_eq_true, beq_iff_eq] at h
    simp only [sizesSum, List.nil_append, List.map_cons, List.map_nil, List.sum_cons,
      List.sum_nil]
    omega
  | cons hd tl ih =>
    intro off h
    simp only [List.cons_append, contiguousFrom, Bool.and_eq_true, beq_iff_eq] at h
    have := ih (hd.1 + hd.2) h.2
    simp only [sizesSum, List.map_cons, List.sum_cons, List.map_append,
      List.sum_append] at this ⊢
    omega

/-- The layout property of one pack: the manifest's `(offset, size)` pairs, in
write order, are contiguous starting at the base length, monotone, bounded by
the start of the manifest region, and the manifest bytes sit at that start. -/
def LayoutOk (base project_json : List Nat)
    (media_files button_files : List (String × String × String × List Nat))
    (app_icon : Option (List Nat)) : Prop :=
  let r := create_embedded_executable base project_json media_files button_files app_icon
  contiguousFrom base.length (layoutPairs r.2) = true ∧
  List.Chain' (fun p q => p.1 ≤ q.1) (layoutPairs r.2) ∧
  (∀ p ∈ layoutPairs r.2,
    p.1 + p.2 ≤ r.2.project_json_offset + r.2.project_json_size) ∧
  (r.1.drop (r.2.project_json_offset + r.2.project_json_size)).take
      (manifestJsonBytes r.2).length = manifestJsonBytes r.2

/-- C2: Layout invariant — for every pack, the manifest's `(offset, size)`
pairs, in the order media (input order), buttons (input order), optional icon,
project document, are contiguous starting at the output file's length when
opened for append (`base.length`); offsets are monotonically non-decreasing in
that order; every byte range `[offset, offset + size)` ends no later than the
manifest region starts; and the manifest bytes indeed sit at that position in
the produced file. -/
theorem C2_layout_invariant (base project_json : List Nat)
    (media_files button_files : List (String × String × String × List Nat))
    (app_icon : Option (List Nat)) :
    LayoutOk base project_json media_files button_files app_icon := by
  unfold LayoutOk
  intro r
  have hcontig : contiguousFrom base.length (layoutPairs r.2) = true := by
    show contiguousFrom base.length
      (layoutPairs (packManifest base project_json media_files button_files app_icon)) = true
    unfold layoutPairs packManifest
    simp only [List.append_assoc]
    rw [contiguousFrom_buildEntries, contiguousFrom_buildEntries]
    cases app_icon with
    | none =>
      simp [contiguousFrom, iconBytesOf, Nat.add_assoc]
    | some icon =>
      simp [contiguousFrom, iconBytesOf, Nat.add_assoc]
  have hlast : base.length + sizesSum (layoutPairs r.2)
      = r.2.project_json_offset + r.2.project_json_size := by
    have h := contiguousFrom_last
      (r.2.media.map (fun e => (e.offset, e.size)) ++
        r.2.buttons.map (fun e => (e.offset, e.size)) ++
        (match r.2.app_icon_offset, r.2.app_icon_size with
         | some o, some s => [(o, s)]
         | _, _ => []))
      (r.2.project_json_offset, r.2.project_json_size) base.length
    exact h hcontig
  refine ⟨hcontig, contiguousFrom_chain' _ base.length hcontig, ?_, ?_⟩
  · intro p hp
    have := contiguousFrom_range_bound _ base.length hcontig p hp
    omega
  · have hpre : (packManifest base project_json media_files button_files app_icon).project_json_offset
        + (packManifest base project_json media_files button_files app_icon).project_json_size
        = (base ++ filesBytes media_files ++ filesBytes button_files ++
            iconBytesOf app_icon ++ project_json).length := by
      simp [packManifest, filesBytes_length]
      omega
    have hfile : (create_embedded_executable base project_json media_files button_files app_icon).1
        = (base ++ filesBytes media_files ++ filesBytes button_files ++
            iconBytesOf app_icon ++ project_json) ++
          manifestJsonBytes (packManifest base project_json media_files button_files app_icon) ++
          (le64 (manifestJsonBytes (packManifest base project_json media_files button_files app_icon)).length
            ++ MAGIC_BYTES) := by
      unfold create_embedded_executable
      simp [List.append_assoc]
    show (((create_embedded_executable base project_json media_files button_files app_icon).1.drop
        ((packManifest base project_json media_files button_files app_icon).project_json_offset
          + (packManifest base project_json media_files button_files app_icon).project_json_size)).take
        (manifestJsonBytes (packManifest base project_json media_files button_files app_icon)).length)
      = manifestJsonBytes (packManifest base project_json media_files button_files app_icon)
    rw [hfile, hpre]
    exact slice_at _ _ _

/-- Concrete witness for C2 at a three-byte base with one media asset. -/
theorem C2_layout_invariant_witness :
    LayoutOk [1, 2, 3] [123, 125] [("a", "a.png", "image/png", [137, 80])] [] none :=
  C2_layout_invariant [1, 2, 3] [123, 125] [("a", "a.png", "image/png", [137, 80])] [] none

/-! ## The footer -/

theorem leBytes_length (k : Nat) : ∀ n, (leBytes k n).length = k := by
  induction k with
  | zero => intro n; rfl
  | succ k ih => intro n; simp [leBytes, ih]

theorem decodeLe64_leBytes (k : Nat) : ∀ n, decodeLe64 (leBytes k n) = n % 256 ^ k := by
  induction k with
  | zero => intro n; simp [leBytes, decodeLe64, Nat.mod_one]
  | succ k ih =>
    intro n
    have hstep : decodeLe64 ((n % 256) :: leBytes k (n / 256))
        = n % 256 + 256 * decodeLe64 (leBytes k (n / 256)) := rfl
    rw [leBytes, hstep, ih (n / 256), Nat.pow_succ, Nat.mul_comm (256 ^ k) 256,
      Nat.mod_mul]

theorem decodeLe64_le64 (n : Nat) (h : n < 2 ^ 64) : decodeLe64 (le64 n) = n := by
  rw [le64, decodeLe64_leBytes]
  have h256 : (256 : Nat) ^ 8 = 2 ^ 64 := by norm_num
  rw [h256, Nat.mod_eq_of_lt h]

theorem MAGIC_BYTES_length : MAGIC_BYTES.length = 9 := by decide

/-- The footer property of a packed file: the last 9 bytes are the magic, the
8 bytes before them are the little-endian encoding of the manifest JSON's byte
length and decode back to it, and the manifest JSON bytes immediately precede
those 17 trailing bytes. -/
def FooterOk (base project_json : List Nat)
    (media_files button_files : List (String × String × String × List Nat))
    (app_icon : Option (List Nat)) : Prop :=
  let r := create_embedded_executable base project_json media_files button_files app_icon
  let mb := manifestJsonBytes r.2
  17 ≤ r.1.length ∧
  r.1.drop (r.1.length - 9) = MAGIC_BYTES ∧
  (r.1.drop (r.1.length - 17)).take 8 = le64 mb.length ∧
  decodeLe64 ((r.1.drop (r.1.length - 17)).take 8) = mb.length ∧
  (r.1.drop (r.1.length - 17 - mb.length)).take mb.length = mb

/-- C3: Footer format — every pack produces a file ending with a 17-byte
footer: ASCII magic `VISTUT_V1` at `[len - 9, len)` and, before it, a
little-endian unsigned 64-bit word equal to the UTF-8 byte length of the
serialized manifest JSON that immediately precedes the footer. (The byte
length is below `2^64`, as forced by Rust's `usize → u64` cast.) -/
theorem footer_slices (A mb : List Nat) (h : mb.length < 2 ^ 64) :
    17 ≤ (A ++ mb ++ le64 mb.length ++ MAGIC_BYTES).length ∧
    (A ++ mb ++ le64 mb.length ++ MAGIC_BYTES).drop
        ((A ++ mb ++ le64 mb.length ++ MAGIC_BYTES).length - 9) = MAGIC_BYTES ∧
    ((A ++ mb ++ le64 mb.length ++ MAGIC_BYTES).drop
        ((A ++ mb ++ le64 mb.length ++ MAGIC_BYTES).length - 17)).take 8 = le64 mb.length ∧
    decodeLe64 (((A ++ mb ++ le64 mb.length ++ MAGIC_BYTES).drop
        ((A ++ mb ++ le64 mb.length ++ MAGIC_BYTES).length - 17)).take 8) = mb.length ∧
    ((A ++ mb ++ le64 mb.length ++ MAGIC_BYTES).drop
        ((A ++ mb ++ le64 mb.length ++ MAGIC_BYTES).length - 17 - mb.length)).take mb.length
      = mb := by
  have hlen : (A ++ mb ++ le64 mb.length ++ MAGIC_BYTES).length
      = A.length + mb.length + 17 := by
    simp [le64, leBytes_length, MAGIC_BYTES_length]
    omega
  have hmagic : (A ++ mb ++ le64 mb.length ++ MAGIC_BYTES).drop
      ((A ++ mb ++ le64 mb.length ++ MAGIC_BYTES).length - 9) = MAGIC_BYTES := by
    rw [hlen]
    have h0 : ((A ++ mb ++ le64 mb.length) ++ MAGIC_BYTES).drop (A ++ mb ++ le64 mb.length).length
        = MAGIC_BYTES := List.drop_left _ _
    have hlen2 : (A ++ mb ++ le64 mb.length).length = A.length + mb.length + 17 - 9 := by
      simp [le64, leBytes_length]
      omega
    rw [hlen2] at h0
    exact h0
  have hword : ((A ++ mb ++ le64 mb.length ++ MAGIC_BYTES).drop
      ((A ++ mb ++ le64 mb.length ++ MAGIC_BYTES).length - 17)).take 8 = le64 mb.length := by
    rw [hlen]
    have h0 : ((A ++ mb) ++ (le64 mb.length ++ MAGIC_BYTES)).drop (A ++ mb).length
        = le64 mb.length ++ MAGIC_BYTES := List.drop_left _ _
    have hlen2 : (A ++ mb).length = A.length + mb.length + 17 - 17 := by
      simp
    rw [hlen2] at h0
    have h2 := congrArg (List.take 8) h0
    rw [List.take_left' (by simp [le64, leBytes_length])] at h2
    simpa [List.append_assoc] using h2
  refine ⟨by omega, hmagic, hword, ?_, ?_⟩
  · rw [hword]
    exact decodeLe64_le64 mb.length h
  · rw [hlen]
    have hpos : A.length + mb.length + 17 - 17 - mb.length = A.length := by omega
    rw [hpos]
    have h0 : (A ++ (mb ++ (le64 mb.length ++ MAGIC_BYTES))).drop A.length
        = mb ++ (le64 mb.length ++ MAGIC_BYTES) := List.drop_left _ _
    have h2 := congrArg (List.take mb.length) h0
    rw [List.take_left] at h2
    simp [List.append_assoc] at h2
    simp [List.append_assoc, h2]

theorem C3_footer_format (base project_json : List Nat)
    (media_files button_files : List (String × String × String × List Nat))
    (app_icon : Option (List Nat))
    (hsize : (manifestJsonBytes
      (create_embedded_executable base project_json media_files button_files app_icon).2).length
      < 2 ^ 64) :
    FooterOk base project_json media_files button_files app_icon := by
  have hfile : (create_embedded_executable base project_json media_files button_files app_icon).1
      = (base ++ filesBytes media_files ++ filesBytes button_files ++
          iconBytesOf app_icon ++ project_json) ++
        manifestJsonBytes (create_embedded_executable base project_json media_files button_files app_icon).2 ++
        le64 (manifestJsonBytes (create_embedded_executable base project_json media_files button_files app_icon).2).length ++
        MAGIC_BYTES := by
    show (create_embedded_executable base project_json media_files button_files app_icon).1
      = (base ++ filesBytes media_files ++ filesBytes button_files ++
          iconBytesOf app_icon ++ project_json) ++
        manifestJsonBytes (packManifest base project_json media_files button_files app_icon) ++
        le64 (manifestJsonBytes (packManifest base project_json media_files button_files app_icon)).length ++
        MAGIC_BYTES
    unfold create_embedded_executable
    simp [List.append_assoc]
  have h := footer_slices
    (base ++ filesBytes media_files ++ filesBytes button_files ++
      iconBytesOf app_icon ++ project_json)
    (manifestJsonBytes (create_embedded_executable base project_json media_files button_files app_icon).2)
    hsize
  simp only [FooterOk]
  rw [hfile]
  exact h

/-- Concrete witness for C3 at an empty base with project `[123, 125]` and an
empty payload. -/
theorem C3_footer_format_witness :
    (manifestJsonBytes (create_embedded_executable [] [123, 125] [] [] none).2).length < 2 ^ 64 ∧
    FooterOk [] [123, 125] [] [] none :=
  ⟨by decide, C3_footer_format [] [123, 125] [] [] none (by decide)⟩

/-! ## Manifest JSON rendering of the absent icon -/

/-- C4 counterexample: for an empty payload (empty base, project `"\x7b\x7d"`,
no media, no buttons, no icon) the serialized manifest JSON is exactly the
string below — the keys `appIconOffset` and `appIconSize` DO appear, with
value `null`, because `BuildManifest` has no `skip_serializing_if` attribute;
the manifest does not consist of only the four claimed fields. -/
theorem C4_manifest_null_fields_counterexample :
    manifestToJsonString (create_embedded_executable [] [123, 125] [] [] none).2
      = "\x7b\"projectJsonOffset\":0,\"projectJsonSize\":2,\"media\":[],\"buttons\":[],\"appIconOffset\":null,\"appIconSize\":null\x7d" ∧
    List.IsInfix (utf8Encode "\"appIconOffset\":null")
      (manifestJsonBytes (create_embedded_executable [] [123, 125] [] [] none).2) := by
  constructor
  · decide
  · decide

/-- C4 (amended): when no icon is supplied, the serialized manifest JSON
represents `appIconOffset` and `appIconSize` as null-valued fields — the keys
appear, each with value `null` — after the four fields `projectJsonOffset`,
`projectJsonSize`, `media` and `buttons`. -/
theorem C4_manifest_null_fields (base project_json : List Nat)
    (media_files button_files : List (String × String × String × List Nat)) :
    (create_embedded_executable base project_json media_files button_files none).2.app_icon_offset
        = none ∧
    (create_embedded_executable base project_json media_files button_files none).2.app_icon_size
        = none ∧
    manifestToJsonString (create_embedded_executable base project_json media_files button_files none).2
      = "\x7b\"projectJsonOffset\":"
        ++ toString (create_embedded_executable base project_json media_files button_files none).2.project_json_offset
        ++ ",\"projectJsonSize\":"
        ++ toString (create_embedded_executable base project_json media_files button_files none).2.project_json_size
        ++ ",\"media\":["
        ++ String.intercalate ","
          ((create_embedded_executable base project_json media_files button_files none).2.media.map entryToJson)
        ++ "],\"buttons\":["
        ++ String.intercalate ","
          ((create_embedded_executable base project_json media_files button_files none).2.buttons.map entryToJson)
        ++ "],\"appIconOffset\":null,\"appIconSize\":null\x7d" := by
  refine ⟨rfl, rfl, ?_⟩
  have tail_eq : ∀ s : String,
      s ++ "],\"appIconOffset\":" ++ optU64ToJson none ++ ",\"appIconSize\":"
        ++ optU64ToJson none ++ "\x7d"
      = s ++ "],\"appIconOffset\":null,\"appIconSize\":null\x7d" := by
    intro s
    rw [String.append_assoc, String.append_assoc, String.append_assoc, String.append_assoc]
    exact congrArg (fun t => s ++ t) (by decide)
  exact tail_eq _

/-! ## Absent magic is not an error for `get_embedded_info` -/

/-- C5: For every readable file whose last 9 bytes are not the magic
`VISTUT_V1` — including any file shorter than 17 bytes — `get_embedded_info`
returns success with `has_embedded_data = false` and no manifest, for any
behaviour of the manifest parser. -/
theorem C5_get_embedded_info_no_magic (parse : List Nat → Except String BuildManifest)
    (file : List Nat)
    (h : file.length < 17 ∨ file.drop (file.length - 9) ≠ MAGIC_BYTES) :
    get_embedded_info parse file
      = Except.ok { has_embedded_data := false, manifest := none } := by
  have hmagic : check_magic_bytes file = false := by
    by_cases hlen : file.length < 17
    · simp [check_magic_bytes, MAGIC_SIZE, MANIFEST_SIZE_BYTES, hlen]
    · rcases h with h | h
      · omega
      · simp [check_magic_bytes, MAGIC_SIZE, MANIFEST_SIZE_BYTES, hlen, h]
  simp [get_embedded_info, hmagic]

/-- Concrete witness for C5: the empty file, with a parser that would reject
everything, yields `has_embedded_data = false` without error. -/
theorem C5_get_embedded_info_no_magic_witness :
    (([] : List Nat).length < 17 ∨ ([] : List Nat).drop (0 - 9) ≠ MAGIC_BYTES) ∧
    get_embedded_info (fun _ => Except.error "never parsed") []
      = Except.ok { has_embedded_data := false, manifest := none } :=
  ⟨Or.inl (by decide),
    C5_get_embedded_info_no_magic (fun _ => Except.error "never parsed") []
      (Or.inl (by decide))⟩

/-! ## Media lookup order and the not-found error -/

/-- C7: For a file with the magic and a parsed manifest, `get_embedded_media_data`
searches `media` first and only on no match falls through to `buttons`; a
matching entry is served by `read_embedded_media` at its offset and size, and
when neither list matches the call fails with `"Media not found: {id}"`. -/
theorem C7_media_lookup (parse : List Nat → Except String BuildManifest)
    (file : List Nat) (id : String) (m : BuildManifest)
    (hmagic : check_magic_bytes file = true)
    (hman : read_manifest parse file = Except.ok m) :
    (∀ e, m.media.find? (fun en => en.id == id) = some e →
      get_embedded_media_data parse file id = read_embedded_media file e.offset e.size) ∧
    (m.media.find? (fun en => en.id == id) = none →
      ∀ e, m.buttons.find? (fun en => en.id == id) = some e →
        get_embedded_media_data parse file id = read_embedded_media file e.offset e.size) ∧
    (m.media.find? (fun en => en.id == id) = none →
      m.buttons.find? (fun en => en.id == id) = none →
      get_embedded_media_data parse file id = Except.error ("Media not found: " ++ id)) := by
  refine ⟨?_, ?_, ?_⟩
  · intro e he
    simp [get_embedded_media_data, hmagic, hman, he]
  · intro hnone e he
    simp [get_embedded_media_data, hmagic, hman, hnone, he]
  · intro hnone hbnone
    simp [get_embedded_media_data, hmagic, hman, hnone, hbnone]

/-- The 17-byte file consisting of a zero size word and the magic: it has the
magic, a manifest size of 0, and an empty manifest slice. -/
def sampleFooterFile : List Nat := le64 0 ++ MAGIC_BYTES

/-- The manifest with an empty payload and no icon fields. -/
def emptyManifest : BuildManifest :=
  { project_json_offset := 0, project_json_size := 0, media := [], buttons := [],
    app_icon_offset := none, app_icon_size := none }

/-- A parser model that accepts only the empty slice, as `emptyManifest`. -/
def parseEmptyOnly (bytes : List Nat) : Except String BuildManifest :=
  if bytes = [] then Except.ok emptyManifest else Except.error "Failed to parse manifest JSON"

/-- Concrete witness for C7: on `sampleFooterFile` with `parseEmptyOnly`,
looking up the id `"z"` (absent from both empty lists) fails with the
not-found message carrying the id. -/
theorem C7_media_lookup_witness :
    check_magic_bytes sampleFooterFile = true ∧
    read_manifest parseEmptyOnly sampleFooterFile = Except.ok emptyManifest ∧
    get_embedded_media_data parseEmptyOnly sampleFooterFile "z"
      = Except.error ("Media not found: " ++ "z") :=
  ⟨rfl, rfl,
    (C7_media_lookup parseEmptyOnly sampleFooterFile "z" emptyManifest rfl rfl).2.2 rfl rfl⟩

/-! ## The icon read and the missing-magic error -/

/-- C9 counterexample: on an image that merely carries no embedded data (here
the empty file — `check_magic_bytes` is `false`), `get_embedded_app_icon`
DOES return an error, `"No embedded data found"`; so it is not the case that
it errors only on a malformed embedding. -/
theorem C9_icon_counterexample :
    get_embedded_app_icon (fun _ => Except.error "never parsed") []
      = Except.error "No embedded data found" := rfl

/-- C9 (amended): `get_embedded_app_icon` returns `some` of the bytes at
`app_icon_offset .. + app_icon_size` when both fields are present in the
parsed manifest and `none` when either is absent; however, when the image
carries no embedded data (magic absent) it errors with
`"No embedded data found"` rather than succeeding. -/
theorem C9_icon_optional (parse : List Nat → Except String BuildManifest)
    (file : List Nat) (m : BuildManifest) :
    (check_magic_bytes file = false →
      get_embedded_app_icon parse file = Except.error "No embedded data found") ∧
    (check_magic_bytes file = true → read_manifest parse file = Except.ok m →
      (∀ o s, m.app_icon_offset = some o → m.app_icon_size = some s →
        o + s ≤ file.length →
        get_embedded_app_icon parse file = Except.ok (some ((file.drop o).take s))) ∧
      ((m.app_icon_offset = none ∨ m.app_icon_size = none) →
        get_embedded_app_icon parse file = Except.ok none)) := by
  constructor
  · intro hmagic
    simp [get_embedded_app_icon, hmagic]
  · intro hmagic hman
    constructor
    · intro o s ho hs hrange
      simp [get_embedded_app_icon, hmagic, hman, ho, hs, read_embedded_media, hrange]
    · intro habs
      rcases habs with h | h
      · simp [get_embedded_app_icon, hmagic, hman, h]
      · cases ho : m.app_icon_offset with
        | none => simp [get_embedded_app_icon, hmagic, hman, ho]
        | some o => simp [get_embedded_app_icon, hmagic, hman, ho, h]

/-- Concrete witness for C9: on `sampleFooterFile`, whose manifest has no icon
fields, the icon read succeeds with `none`; and on the empty file it errors. -/
theorem C9_icon_optional_witness :
    get_embedded_app_icon parseEmptyOnly sampleFooterFile = Except.ok none ∧
    get_embedded_app_icon parseEmptyOnly [] = Except.error "No embedded data found" :=
  ⟨((C9_icon_optional parseEmptyOnly sampleFooterFile emptyManifest).2 rfl rfl).2
      (Or.inl rfl),
    (C9_icon_optional parseEmptyOnly [] emptyManifest).1 rfl⟩

/-! ## Compression fallback -/

/-- C6: When compression applies to a media asset (`enabled` and a
`video/` mime type) and the transcoder invocation fails, the export step still
succeeds and the asset is embedded with its original content source and its
original mime type — `to_media_source file`, whose mime component is
`file.mime_type`; only on compression success is the mime type rewritten to
`"video/mp4"` (with the compressed output path as source). Stated for assets
supplied by path and for assets supplied as in-memory data. -/
theorem C6_compression_fallback (file : ExportMediaFile) (c : CompressionSettings)
    (tin tout : String) (compress : String → String → Except String Unit)
    (hen : c.enabled = true) (hvid : is_video_file file.mime_type = true) :
    (to_media_source file).2.2.1 = file.mime_type ∧
    (∀ p e, file.path = some p → compress p tout = Except.error e →
      process_media_file_for_export file (some c) tin tout compress
        = Except.ok (to_media_source file, [])) ∧
    (∀ e, file.path = none → file.data.isSome → compress tin tout = Except.error e →
      process_media_file_for_export file (some c) tin tout compress
        = Except.ok (to_media_source file, [tin])) ∧
    (∀ p, file.path = some p → compress p tout = Except.ok () →
      process_media_file_for_export file (some c) tin tout compress
        = Except.ok ((file.id, file.name, "video/mp4", MediaSource.path tout), [tout])) ∧
    (file.path = none → file.data.isSome → compress tin tout = Except.ok () →
      process_media_file_for_export file (some c) tin tout compress
        = Except.ok ((file.id, file.name, "video/mp4", MediaSource.path tout), [tin, tout])) := by
  refine ⟨rfl, ?_, ?_, ?_, ?_⟩
  · intro p e hp hc2
    simp [process_media_file_for_export, hen, hvid, hp, hc2]
  · intro e hp hd hc2
    obtain ⟨d, hd2⟩ := Option.isSome_iff_exists.mp hd
    simp [process_media_file_for_export, hen, hvid, hp, hd2, hc2]
  · intro p hp hc2
    simp [process_media_file_for_export, hen, hvid, hp, hc2]
  · intro hp hd hc2
    obtain ⟨d, hd2⟩ := Option.isSome_iff_exists.mp hd
    simp [process_media_file_for_export, hen, hvid, hp, hd2, hc2]

/-- Concrete witness for C6: a data-supplied `video/avi` asset whose
compression fails is embedded with its original data and mime type. -/
theorem C6_compression_fallback_witness :
    ({ enabled := true, quality := CompressionQuality.medium, max_height := none
       : CompressionSettings }).enabled = true ∧
    is_video_file "video/avi" = true ∧
    process_media_file_for_export
        { id := "v", name := "clip.avi", mime_type := "video/avi",
          data := some [1, 2, 3], path := none }
        (some { enabled := true, quality := CompressionQuality.medium, max_height := none })
        "/tmp/in.avi" "/tmp/out.mp4" (fun _ _ => Except.error "exit status 1")
      = Except.ok
          (("v", "clip.avi", "video/avi", MediaSource.data [1, 2, 3]), ["/tmp/in.avi"]) :=
  ⟨rfl, by decide,
    (C6_compression_fallback
        { id := "v", name := "clip.avi", mime_type := "video/avi",
          data := some [1, 2, 3], path := none }
        { enabled := true, quality := CompressionQuality.medium, max_height := none }
        "/tmp/in.avi" "/tmp/out.mp4" (fun _ _ => Except.error "exit status 1")
        rfl (by decide)).2.2.1 "exit status 1" rfl rfl rfl⟩

/-! ## Transcoder progress protocol -/

/-- C8: A stdout line `out_time_ms=<v>` with `v` parseable as a signed 64-bit
integer number of microseconds triggers exactly one progress callback with
`100 * (v / 1000000) / duration` clamped to at most 100 (given a positive
probed duration), and a terminal `progress=end` line triggers a final report
of 100. (The source's f64 arithmetic is modelled by exact rationals.) -/
theorem C8_progress_reports (duration_secs : ℚ) (s : List Char) (v : Int)
    (hdur : 0 < duration_secs) (hparse : parseI64 s = some v) :
    processLine duration_secs (out_time_key ++ s)
      = [min (100 * ((v : ℚ) / 1000000) / duration_secs) 100] ∧
    processLine duration_secs "progress=end".data = [100] := by
  constructor
  · have htake : (out_time_key ++ s).take 12 = out_time_key :=
      List.take_left' rfl
    have hdrop : (out_time_key ++ s).drop 12 = s :=
      List.drop_left' rfl
    have hne : ¬(out_time_key ++ s = "progress=end".data) := by
      intro hcontr
      have hhead := congrArg (fun l => l.headD ' ') hcontr
      have : 'o' = 'p' := hhead
      exact absurd this (by decide)
    have harith : (v : ℚ) / 1000000 / duration_secs * 100
        = 100 * ((v : ℚ) / 1000000) / duration_secs := by
      ring
    simp only [processLine, htake, hdrop, hparse, harith]
    simp [hne, hdur]
  · simp [processLine]
    intro h
    exact absurd h (by decide)

/-- Concrete witness for C8: with a 10-second duration, the line
`out_time_ms=2500000` reports 25%, and `progress=end` reports 100%. -/
theorem C8_progress_reports_witness :
    (0 : ℚ) < 10 ∧ parseI64 "2500000".data = some 2500000 ∧
    processLine 10 (out_time_key ++ "2500000".data)
      = [min (100 * ((2500000 : ℚ) / 1000000) / 10) 100] ∧
    processLine 10 "progress=end".data = [100] :=
  ⟨by norm_num, by decide,
    C8_progress_reports 10 "2500000".data 2500000 (by norm_num) (by decide)⟩

/-! ## The export asset source selection -/

/-- C10: `to_media_source` selects the path-sourced content whenever a path is
supplied — inline data, present or not, is ignored — and when neither data nor
path is supplied the asset is embedded as zero bytes (`MediaSource.data []`). -/
theorem C10_media_source_selection (file : ExportMediaFile) (p : String) :
    (file.path = some p →
      to_media_source file = (file.id, file.name, file.mime_type, MediaSource.path p)) ∧
    (file.path = none → file.data = none →
      to_media_source file = (file.id, file.name, file.mime_type, MediaSource.data [])) := by
  constructor
  · intro hp
    simp [to_media_source, hp]
  · intro hp hd
    simp [to_media_source, hp, hd]

/-- Concrete witness for C10: with both data and a path supplied the path wins
and the inline bytes `[7]` are ignored; with neither, the source is empty. -/
theorem C10_media_source_selection_witness :
    to_media_source
        { id := "i", name := "n", mime_type := "m", data := some [7], path := some "/p" }
      = ("i", "n", "m", MediaSource.path "/p") ∧
    to_media_source
        { id := "i", name := "n", mime_type := "m", data := none, path := none }
      = ("i", "n", "m", MediaSource.data []) :=
  ⟨(C10_media_source_selection
      { id := "i", name := "n", mime_type := "m", data := some [7], path := some "/p" }
      "/p").1 rfl,
    (C10_media_source_selection
      { id := "i", name := "n", mime_type := "m", data := none, path := none }
      "/p").2 rfl rfl⟩

end VisTut
